import Mathlib

/-!
Verification of the retention-decision pipeline of the ghcr-cleanup tool.

The definitions below are a shallow embedding of the program's main script
(the ES-module variant of `cleanup.js`): the tag sanitizer, the JS `Date`
arithmetic used to build the `minAge`/`maxAge` cutoffs, the manifest/config
resolution tree, the per-version retention filter (the `toDelete` filter
callback including its try/catch), the package inventory filter, and the
deletion/summary stage.  Theorems about these definitions settle the claims
of the specification.
-/

/-! ## Tag sanitization (`sanitizeTag`, source lines 19-21)

The source is `tag.replace(/[^a-zA-Z0-9._-]+/g, '-')`: every maximal run of
characters outside the class `[A-Za-z0-9._-]` is replaced by a single `'-'`.
`sanitizeAux` is the scanner form of that substitution: the boolean flag
records whether the previous character belonged to a disallowed run whose
replacement `'-'` has already been emitted. -/

def isAllowedChar (c : Char) : Bool :=
  ('a' ≤ c && c ≤ 'z') || ('A' ≤ c && c ≤ 'Z') || ('0' ≤ c && c ≤ '9') ||
    c == '.' || c == '_' || c == '-'

def sanitizeAux : Bool → List Char → List Char
  | _, [] => []
  | inRun, c :: rest =>
    if isAllowedChar c then c :: sanitizeAux false rest
    else if inRun then sanitizeAux true rest
    else '-' :: sanitizeAux true rest

def sanitizeTag (tag : String) : String :=
  ⟨sanitizeAux false tag.data⟩

/-- Two character lists differ only in disallowed characters: they have the
same length and at each position either the characters are equal or both lie
outside `[A-Za-z0-9._-]`. -/
def differOnly : List Char → List Char → Bool
  | [], [] => true
  | c :: cs, d :: ds =>
    (c == d || (!isAllowedChar c && !isAllowedChar d)) && differOnly cs ds
  | _, _ => false

theorem sanitizeAux_mem_allowed (l : List Char) :
    ∀ inRun c, c ∈ sanitizeAux inRun l → isAllowedChar c = true := by
  induction l with
  | nil => intro inRun c h; simp [sanitizeAux] at h
  | cons a rest ih =>
    intro inRun c h
    by_cases ha : isAllowedChar a = true
    · simp [sanitizeAux, ha] at h
      rcases h with h | h
      · exact h ▸ ha
      · exact ih false c h
    · cases inRun with
      | true =>
        simp [sanitizeAux, ha] at h
        exact ih true c h
      | false =>
        simp [sanitizeAux, ha] at h
        rcases h with h | h
        · subst h; decide
        · exact ih true c h

theorem sanitizeAux_allowed_id (l : List Char)
    (h : ∀ c ∈ l, isAllowedChar c = true) : sanitizeAux false l = l := by
  induction l with
  | nil => rfl
  | cons a rest ih =>
    have ha : isAllowedChar a = true := h a (by simp)
    simp [sanitizeAux, ha]
    exact ih fun c hc => h c (by simp [hc])

theorem differOnly_sanitizeAux (l1 : List Char) :
    ∀ l2 inRun, differOnly l1 l2 = true →
      sanitizeAux inRun l1 = sanitizeAux inRun l2 := by
  induction l1 with
  | nil =>
    intro l2 inRun h
    cases l2 with
    | nil => rfl
    | cons d ds => simp [differOnly] at h
  | cons c cs ih =>
    intro l2 inRun h
    cases l2 with
    | nil => simp [differOnly] at h
    | cons d ds =>
      simp only [differOnly, Bool.and_eq_true, Bool.or_eq_true,
        Bool.and_eq_true, beq_iff_eq] at h
      obtain ⟨hcd, hrest⟩ := h
      rcases hcd with hcd | ⟨hc, hd⟩
      · subst hcd
        by_cases hc : isAllowedChar c = true
        · simp [sanitizeAux, hc, ih ds false hrest]
        · cases inRun with
          | true => simp [sanitizeAux, hc, ih ds true hrest]
          | false => simp [sanitizeAux, hc, ih ds true hrest]
      · rw [Bool.not_eq_true'] at hc hd
        cases inRun with
        | true => simp [sanitizeAux, hc, hd, ih ds true hrest]
        | false => simp [sanitizeAux, hc, hd, ih ds true hrest]

/-- C7: `sanitizeTag` is deterministic (it is a pure function) and
idempotent, and any two inputs that differ only in disallowed characters
(same length, pointwise equal or both outside `[A-Za-z0-9._-]`) sanitize to
the same string. -/
theorem sanitizeTag_idempotent_and_run_invariant :
    (∀ x : String, sanitizeTag (sanitizeTag x) = sanitizeTag x) ∧
    (∀ x y : String, differOnly x.data y.data = true →
      sanitizeTag x = sanitizeTag y) := by
  constructor
  · intro x
    show (⟨sanitizeAux false (sanitizeAux false x.data)⟩ : String) = _
    rw [sanitizeAux_allowed_id _ (fun c hc => sanitizeAux_mem_allowed _ false c hc)]
    rfl
  · intro x y h
    show (⟨sanitizeAux false x.data⟩ : String) = ⟨sanitizeAux false y.data⟩
    rw [differOnly_sanitizeAux x.data y.data false h]

/-- Witness for C7 at concrete inputs. -/
theorem sanitizeTag_idempotent_and_run_invariant_witness :
    sanitizeTag (sanitizeTag "a/b") = sanitizeTag "a/b" ∧
    sanitizeTag "a/b" = sanitizeTag "a:b" :=
  ⟨sanitizeTag_idempotent_and_run_invariant.1 "a/b",
   sanitizeTag_idempotent_and_run_invariant.2 "a/b" "a:b" (by decide)⟩

/-! ## JS `Date` arithmetic for the age cutoffs (source lines 314-318)

The script computes two per-run cutoffs:
```
const minAge = new Date();  minAge.setDate(minAge.getDate() - 1);
const maxAge = new Date();  maxAge.setFullYear(minAge.getFullYear() - 1);
```
A `Date` is modelled as a civil date-time (proleptic Gregorian calendar, a
fixed-offset clock as on a UTC runner): year, month (1-12), day of month,
and milliseconds within the day.  JS `Date` comparison is by absolute
timestamp, which for normalized civil dates is the lexicographic order on
`(year, month, day, ms)`.  `setDate(getDate() - 1)` steps back one calendar
day; `setFullYear(y)` replaces the year and lets an overflowing
February 29 roll over into March 1, as JS does. -/

structure DateTime where
  year : Int
  month : Nat
  day : Nat
  ms : Nat
  deriving Repr, DecidableEq

def DateTime.lt (a b : DateTime) : Bool :=
  if a.year ≠ b.year then a.year < b.year
  else if a.month ≠ b.month then a.month < b.month
  else if a.day ≠ b.day then a.day < b.day
  else a.ms < b.ms

def isLeapYear (y : Int) : Bool :=
  (y % 4 == 0 && y % 100 != 0) || y % 400 == 0

def daysInMonth (y : Int) (m : Nat) : Nat :=
  if m = 2 then (if isLeapYear y then 29 else 28)
  else if m = 4 || m = 6 || m = 9 || m = 11 then 30
  else 31

/-- `d.setDate(d.getDate() - 1)`: one calendar day earlier. -/
def DateTime.minusOneDay (d : DateTime) : DateTime :=
  if 1 < d.day then { d with day := d.day - 1 }
  else if 1 < d.month then
    { d with month := d.month - 1, day := daysInMonth d.year (d.month - 1) }
  else { d with year := d.year - 1, month := 12, day := 31 }

/-- `d.setFullYear(y)`: replace the year; a day overflowing the month in the
new year (February 29 in a non-leap year) rolls into the next month. -/
def DateTime.setFullYear (d : DateTime) (y : Int) : DateTime :=
  if d.day ≤ daysInMonth y d.month then { d with year := y }
  else { d with year := y, month := d.month + 1, day := d.day - daysInMonth y d.month }

/-- Source lines 314-315: `minAge` is the run's start time minus one day. -/
def minAgeOf (now : DateTime) : DateTime := now.minusOneDay

/-- Source lines 317-318: `maxAge` is the run's start time with its year
replaced by `minAge.getFullYear() - 1`. -/
def maxAgeOf (now : DateTime) : DateTime :=
  now.setFullYear ((minAgeOf now).year - 1)

/-- Modelled from the spec: the phrase "one year before the current time",
i.e. the current time with its year decremented by one (the same
`setFullYear` rollover applying to February 29).  Stated only to be compared
against the cutoff `maxAgeOf` that the code actually computes. -/
def oneYearBeforeSpec (now : DateTime) : DateTime :=
  now.setFullYear (now.year - 1)

theorem DateTime.lt_iff {a b : DateTime} :
    a.lt b = true ↔
      (a.year < b.year ∨ (a.year = b.year ∧
        (a.month < b.month ∨ (a.month = b.month ∧
          (a.day < b.day ∨ (a.day = b.day ∧ a.ms < b.ms)))))) := by
  unfold DateTime.lt
  split_ifs with h1 h2 h3 <;> simp_all

theorem DateTime.lt_trans {a b c : DateTime}
    (h1 : a.lt b = true) (h2 : b.lt c = true) : a.lt c = true := by
  rw [DateTime.lt_iff] at h1 h2 ⊢
  omega

theorem DateTime.lt_asymm {a b : DateTime} (h : a.lt b = true) :
    b.lt a = false := by
  rw [Bool.eq_false_iff]
  intro h2
  rw [DateTime.lt_iff] at h h2
  omega

theorem setFullYear_year (d : DateTime) (y : Int) : (d.setFullYear y).year = y := by
  unfold DateTime.setFullYear
  split_ifs <;> rfl

theorem maxAgeOf_year (now : DateTime) :
    (maxAgeOf now).year = (minAgeOf now).year - 1 := by
  unfold maxAgeOf
  exact setFullYear_year now ((minAgeOf now).year - 1)

theorem maxAgeOf_lt_minAgeOf (now : DateTime) :
    (maxAgeOf now).lt (minAgeOf now) = true := by
  rw [DateTime.lt_iff]
  left
  rw [maxAgeOf_year]
  omega

/-- Away from the start-of-year edge — whenever stepping back one day does
not change the calendar year — the computed cutoff `maxAgeOf` coincides with
the spec's "one year before the current time". -/
theorem maxAgeOf_eq_oneYearBefore (now : DateTime)
    (h : (now.minusOneDay).year = now.year) :
    maxAgeOf now = oneYearBeforeSpec now := by
  unfold maxAgeOf oneYearBeforeSpec minAgeOf
  rw [h]

/-! ## Manifest resolution (`fetchManifests` / `fetchConfigs`, source lines 37-84)

`fetchManifests` returns the manifest itself for a single-platform media
type, recursively concatenates the children's results for an index media
type, and throws for an unknown media type (any non-2xx registry response
also throws).  `fetchConfigs` then fetches each leaf manifest's config blob.
The registry's behaviour for one version is therefore a finite tree whose
leaves are either a successfully fetched `ImageConfig` or a failure (HTTP
error, malformed response or unknown media type at that point of the
resolution); `resolveConfigs` is the flattening that `fetchConfigs`
performs, any failure anywhere propagating to the whole resolution. -/

/-- The `config` object inside an image configuration blob.  `Labels` is
`none` when the JSON field is `null`/absent and otherwise a string-to-string
mapping, modelled as an association list. -/
structure ConfigInner where
  Labels : Option (List (String × String))
  deriving Repr, DecidableEq

/-- An image configuration blob (`config.config.Labels` is what the
retention filter reads). -/
structure ImageConfig where
  config : ConfigInner
  deriving Repr, DecidableEq

inductive ManifestTree where
  /-- A single-platform manifest whose config blob fetch succeeds. -/
  | leaf (config : ImageConfig)
  /-- A manifest index fanning out into child manifests. -/
  | index (children : List ManifestTree)
  /-- A failing fetch: HTTP error, malformed response or unknown media type. -/
  | fail
  deriving Repr

mutual

def resolveConfigs : ManifestTree → Except Unit (List ImageConfig)
  | .leaf c => .ok [c]
  | .fail => .error ()
  | .index children => resolveConfigsList children

def resolveConfigsList : List ManifestTree → Except Unit (List ImageConfig)
  | [] => .ok []
  | t :: ts =>
    match resolveConfigs t with
    | .error e => .error e
    | .ok cs =>
      match resolveConfigsList ts with
      | .error e => .error e
      | .ok rest => .ok (cs ++ rest)

end

/-! ## The retention filter (`toDelete`, source lines 314-355) -/

/-- The label key the filter inspects. -/
def versionLabelKey : String := "org.opencontainers.image.version"

/-- What a per-version evaluation can throw: a failed manifest/config
resolution, or the `TypeError` raised by
`config.config.Labels['org.opencontainers.image.version']` when `Labels` is
`null`/`undefined`. -/
inductive EvalError where
  | resolution
  | nullLabels
  deriving Repr, DecidableEq

/-- One platform variant's vote inside `configs.every` (source lines
339-349): reading the label off a missing `Labels` mapping throws; a falsy
label (absent key or empty string) logs an error and votes `false` (keep);
otherwise the vote is `!refs.includes(refName)` with the raw label value. -/
def variantVote (refs : List String) (config : ImageConfig) : Except EvalError Bool :=
  match config.config.Labels with
  | none => .error .nullLabels
  | some labels =>
    match labels.lookup versionLabelKey with
    | none => .ok false
    | some refName =>
      if refName = "" then .ok false
      else .ok (!(refs.contains refName))

/-- `configs.every(...)` over the resolved configs: sequential, short-circuits
on the first `false` vote, and a thrown callback rejects the whole `every`. -/
def configsVote (refs : List String) : List ImageConfig → Except EvalError Bool
  | [] => .ok true
  | c :: rest =>
    match variantVote refs c with
    | .error e => .error e
    | .ok false => .ok false
    | .ok true => configsVote refs rest

/-- A package version as the filter sees it: its parsed `updated_at`
timestamp, the registry's behaviour for its manifest tree, and its API URL
(the deletion endpoint). -/
structure Version where
  updated : DateTime
  tree : ManifestTree
  url : String
  deriving Repr

/-- The body of the `try` block of the `toDelete` filter callback (source
lines 324-349): too-new versions are kept, too-old versions deleted, and in
between the resolved configs vote; resolution failures and label `TypeError`s
escape as exceptions. -/
def evalTry (refs : List String) (minAge maxAge : DateTime) (v : Version) :
    Except EvalError Bool :=
  if minAge.lt v.updated then .ok false
  else if v.updated.lt maxAge then .ok true
  else
    match resolveConfigs v.tree with
    | .error _ => .error .resolution
    | .ok configs => configsVote refs configs

/-- The complete filter callback: the `catch` block (source lines 350-352)
logs the exception and falls off the end, returning `undefined`, which is
falsy — an erroring version is not selected for deletion. -/
def toDeleteFilter (refs : List String) (minAge maxAge : DateTime) (v : Version) :
    Bool :=
  match evalTry refs minAge maxAge v with
  | .ok b => b
  | .error _ => false

/-- Whether the filter reaches the `fetchConfigs` call (source line 337) for
a version: it does exactly when neither age guard returned first. -/
def fetchAttempted (minAge maxAge : DateTime) (v : Version) : Bool :=
  !(minAge.lt v.updated) && !(v.updated.lt maxAge)

/-- The run's `toDelete` stage (source lines 320-355): the version list
filtered by the callback, with the cutoffs computed from the run's start
time. -/
def runToDelete (refs : List String) (now : DateTime) (versions : List Version) :
    List Version :=
  versions.filter (toDeleteFilter refs (minAgeOf now) (maxAgeOf now))

/-! ## Deletion and summary (source lines 357-371) -/

/-- The per-version action of the deletion stage: in dry-run mode it only
logs (`DELETE` is printed, no request object is produced); in live mode it
issues `DELETE {+version_url}` for the version's URL. -/
def deletionStep (dryRun : Bool) (v : Version) : Option String :=
  if dryRun then none else some v.url

/-- Outcome of a run: the delete-decided versions, the delete requests that
were issued, and the count reported by the final summary line. -/
structure RunResult where
  toDelete : List Version
  deleteCalls : List String
  reported : Nat
  deriving Repr

/-- The deletion/summary stage: `toDelete.map(...)` issues (or, dry-run,
skips) one request per decided version and `.reduce(previous => previous + 1, 0)`
counts the mapped elements. -/
def executeDeletions (dryRun : Bool) (decided : List Version) : RunResult :=
  { toDelete := decided
    deleteCalls := decided.filterMap (deletionStep dryRun)
    reported := decided.foldl (fun previous _ => previous + 1) 0 }

/-- The whole decision-plus-deletion pipeline for one run. -/
def runCleanup (dryRun : Bool) (refs : List String) (now : DateTime)
    (versions : List Version) : RunResult :=
  executeDeletions dryRun (runToDelete refs now versions)

/-! ## Package inventory (source lines 261-312) -/

/-- The `repository` object attached to a package listing entry. -/
structure RepoRef where
  node_id : String
  deriving Repr, DecidableEq

/-- A package listing entry: its (possibly absent) repository association
and the versions that listing the package's versions would return. -/
structure Package where
  repository : Option RepoRef
  versions : List Version
  deriving Repr

/-- The inventory filter (source lines 272-276):
`pkg.repository && pkg.repository.node_id === repo.node_id` — the `&&`
short-circuit means `node_id` is read only when `repository` is present. -/
def packageMatchesRepo (repoNodeId : String) (pkg : Package) : Bool :=
  match pkg.repository with
  | none => false
  | some r => r.node_id == repoNodeId

/-- `repoPackages`: the packages that survive the inventory filter; only
these have their versions listed and evaluated. -/
def repoPackages (repoNodeId : String) (packages : List Package) : List Package :=
  packages.filter (packageMatchesRepo repoNodeId)

/-- The versions that enter the retention stage (source lines 278-312):
the version lists of the filtered packages, flattened. -/
def collectVersions (repoNodeId : String) (packages : List Package) : List Version :=
  (repoPackages repoNodeId packages).foldr (fun pkg acc => pkg.versions ++ acc) []

/-! ## Helper lemmas about the vote of the middle age band -/

/-- The version label an `ImageConfig` carries: `none` when the `Labels`
mapping is absent or lacks the key. -/
def getVersionLabel (c : ImageConfig) : Option String :=
  match c.config.Labels with
  | none => none
  | some labels => labels.lookup versionLabelKey

theorem variantVote_ok_true_iff (refs : List String) (c : ImageConfig) :
    variantVote refs c = .ok true ↔
      ∃ x, getVersionLabel c = some x ∧ x ≠ "" ∧ refs.contains x = false := by
  obtain ⟨⟨labels⟩⟩ := c
  cases labels with
  | none => simp [variantVote, getVersionLabel]
  | some m =>
    cases h : m.lookup versionLabelKey with
    | none => simp [variantVote, getVersionLabel, h]
    | some x =>
      by_cases hx : x = ""
      · subst hx
        simp [variantVote, getVersionLabel, h]
      · cases hc : refs.contains x <;>
          simp [variantVote, getVersionLabel, h, hx, hc]

theorem configsVote_ok_true_iff (refs : List String) (l : List ImageConfig) :
    configsVote refs l = .ok true ↔ ∀ c ∈ l, variantVote refs c = .ok true := by
  induction l with
  | nil => simp [configsVote]
  | cons c rest ih =>
    cases h : variantVote refs c with
    | error e => simp [configsVote, h]
    | ok b =>
      cases b with
      | false => simp [configsVote, h]
      | true => simp [configsVote, h, ih]

theorem toDeleteFilter_middle (refs : List String) (minAge maxAge : DateTime)
    (v : Version) (configs : List ImageConfig)
    (h1 : minAge.lt v.updated = false) (h2 : v.updated.lt maxAge = false)
    (h3 : resolveConfigs v.tree = .ok configs) :
    (toDeleteFilter refs minAge maxAge v = true ↔
      configsVote refs configs = .ok true) := by
  cases hcv : configsVote refs configs with
  | error e => simp [toDeleteFilter, evalTry, h1, h2, h3, hcv]
  | ok b => cases b <;> simp [toDeleteFilter, evalTry, h1, h2, h3, hcv]

/-! ## Claim C1 -/

/-- C1 (amended): for a version in the middle age band whose manifest tree
resolves, the retention decision is delete if and only if every resolved
`ImageConfig` carries the `org.opencontainers.image.version` label with a
non-empty value that is not in the protected reference set; a missing or
empty label on any variant, or any variant's value being in the set, keeps
the whole version. -/
theorem middle_band_delete_iff_unprotected (refs : List String) (now : DateTime)
    (v : Version) (configs : List ImageConfig)
    (h1 : (minAgeOf now).lt v.updated = false)
    (h2 : v.updated.lt (maxAgeOf now) = false)
    (h3 : resolveConfigs v.tree = .ok configs) :
    (toDeleteFilter refs (minAgeOf now) (maxAgeOf now) v = true ↔
      ∀ c ∈ configs, ∃ x, getVersionLabel c = some x ∧ x ≠ "" ∧
        refs.contains x = false) := by
  rw [toDeleteFilter_middle refs (minAgeOf now) (maxAgeOf now) v configs h1 h2 h3,
    configsVote_ok_true_iff]
  constructor
  · intro h c hc
    exact (variantVote_ok_true_iff refs c).mp (h c hc)
  · intro h c hc
    exact (variantVote_ok_true_iff refs c).mpr (h c hc)

/-- Counterexample to C1 as stated: a middle-band version whose single
resolved config has the label present with the (empty) value `""`, which is
not in the reference set; the claim then demands delete, but the filter
treats a present-but-empty label like a missing one (`!refName`) and keeps
the version. -/
theorem middle_band_delete_iff_counterexample :
    getVersionLabel ⟨⟨some [(versionLabelKey, "")]⟩⟩ = some "" ∧
    List.contains ["main"] "" = false ∧
    (minAgeOf ⟨2026, 6, 15, 0⟩).lt (⟨2026, 5, 1, 0⟩ : DateTime) = false ∧
    (⟨2026, 5, 1, 0⟩ : DateTime).lt (maxAgeOf ⟨2026, 6, 15, 0⟩) = false ∧
    resolveConfigs (.leaf ⟨⟨some [(versionLabelKey, "")]⟩⟩) =
      .ok [⟨⟨some [(versionLabelKey, "")]⟩⟩] ∧
    toDeleteFilter ["main"] (minAgeOf ⟨2026, 6, 15, 0⟩) (maxAgeOf ⟨2026, 6, 15, 0⟩)
      { updated := ⟨2026, 5, 1, 0⟩,
        tree := .leaf ⟨⟨some [(versionLabelKey, "")]⟩⟩, url := "u" } = false := by
  refine ⟨rfl, rfl, by decide, by decide, rfl, by decide⟩

/-- Witness for C1 (amended) at a concrete middle-band version. -/
theorem middle_band_delete_iff_unprotected_witness :
    (toDeleteFilter ["main"] (minAgeOf ⟨2026, 6, 15, 0⟩) (maxAgeOf ⟨2026, 6, 15, 0⟩)
      { updated := ⟨2026, 5, 1, 0⟩,
        tree := .leaf ⟨⟨some [(versionLabelKey, "feature")]⟩⟩, url := "u" } = true ↔
      ∀ c ∈ [(⟨⟨some [(versionLabelKey, "feature")]⟩⟩ : ImageConfig)],
        ∃ x, getVersionLabel c = some x ∧ x ≠ "" ∧
          List.contains ["main"] x = false) :=
  middle_band_delete_iff_unprotected ["main"] ⟨2026, 6, 15, 0⟩ _ _
    (by decide) (by decide) rfl

/-! ## Claim C2 -/

/-- C2: a version whose `updatedAt` lies within the last day (strictly after
`minAge`) is kept, whatever the reference set and whatever the registry
would answer for its manifests, and the manifest/config fetch is never
reached for it. -/
theorem too_new_always_kept (refs : List String) (now : DateTime) (v : Version)
    (h : (minAgeOf now).lt v.updated = true) :
    evalTry refs (minAgeOf now) (maxAgeOf now) v = .ok false ∧
    toDeleteFilter refs (minAgeOf now) (maxAgeOf now) v = false ∧
    fetchAttempted (minAgeOf now) (maxAgeOf now) v = false := by
  refine ⟨?_, ?_, ?_⟩ <;> simp [evalTry, toDeleteFilter, fetchAttempted, h]

/-- Witness for C2: a version half a day old whose manifest fetch would
fail, with an empty reference set. -/
theorem too_new_always_kept_witness :
    evalTry [] (minAgeOf ⟨2026, 6, 15, 43200000⟩) (maxAgeOf ⟨2026, 6, 15, 43200000⟩)
      { updated := ⟨2026, 6, 15, 0⟩, tree := .fail, url := "u" } = .ok false ∧
    toDeleteFilter [] (minAgeOf ⟨2026, 6, 15, 43200000⟩)
      (maxAgeOf ⟨2026, 6, 15, 43200000⟩)
      { updated := ⟨2026, 6, 15, 0⟩, tree := .fail, url := "u" } = false ∧
    fetchAttempted (minAgeOf ⟨2026, 6, 15, 43200000⟩)
      (maxAgeOf ⟨2026, 6, 15, 43200000⟩)
      { updated := ⟨2026, 6, 15, 0⟩, tree := .fail, url := "u" } = false :=
  too_new_always_kept [] ⟨2026, 6, 15, 43200000⟩
    { updated := ⟨2026, 6, 15, 0⟩, tree := .fail, url := "u" } (by decide)

/-! ## Claim C3 -/

/-- Counterexample to C3 as stated: on January 1 the cutoff the code
computes is two years back, not one — `maxAge.setFullYear(minAge.getFullYear() - 1)`
reads the year of `minAge`, which already stepped into the previous year.
At `now` = 2026-01-01T12:00, a version from 2024-07-01 is older than one
year before `now`, yet the filter puts it in the middle band: its manifests
are fetched, and (the fetch failing here) it is kept, not deleted. -/
theorem too_old_cutoff_counterexample :
    (⟨2024, 7, 1, 0⟩ : DateTime).lt (oneYearBeforeSpec ⟨2026, 1, 1, 43200000⟩) = true ∧
    toDeleteFilter [] (minAgeOf ⟨2026, 1, 1, 43200000⟩) (maxAgeOf ⟨2026, 1, 1, 43200000⟩)
      { updated := ⟨2024, 7, 1, 0⟩, tree := .fail, url := "u" } = false ∧
    fetchAttempted (minAgeOf ⟨2026, 1, 1, 43200000⟩) (maxAgeOf ⟨2026, 1, 1, 43200000⟩)
      { updated := ⟨2024, 7, 1, 0⟩, tree := .fail, url := "u" } = true := by
  decide

/-- C3 (amended): for every current time, every version older than the
cutoff the code actually computes — the current time with its year field set
to one less than the year of (current time minus one day) — is deleted
unconditionally, without any manifest or config fetch; whenever stepping
back one day stays within the calendar year (every day but January 1) that
cutoff coincides with "one year before the current time". -/
theorem too_old_always_deleted (refs : List String) (now : DateTime) (v : Version)
    (h : v.updated.lt (maxAgeOf now) = true) :
    evalTry refs (minAgeOf now) (maxAgeOf now) v = .ok true ∧
    toDeleteFilter refs (minAgeOf now) (maxAgeOf now) v = true ∧
    fetchAttempted (minAgeOf now) (maxAgeOf now) v = false ∧
    ((now.minusOneDay).year = now.year → maxAgeOf now = oneYearBeforeSpec now) := by
  have hlt : v.updated.lt (minAgeOf now) = true :=
    DateTime.lt_trans h (maxAgeOf_lt_minAgeOf now)
  have hguard : (minAgeOf now).lt v.updated = false := DateTime.lt_asymm hlt
  refine ⟨?_, ?_, ?_, maxAgeOf_eq_oneYearBefore now⟩ <;>
    simp [evalTry, toDeleteFilter, fetchAttempted, hguard, h]

/-- Witness for C3 (amended): a version more than a year old whose manifest
fetch would fail is still deleted, without the fetch being reached. -/
theorem too_old_always_deleted_witness :
    evalTry [] (minAgeOf ⟨2026, 6, 15, 0⟩) (maxAgeOf ⟨2026, 6, 15, 0⟩)
      { updated := ⟨2024, 1, 1, 0⟩, tree := .fail, url := "u" } = .ok true ∧
    toDeleteFilter [] (minAgeOf ⟨2026, 6, 15, 0⟩) (maxAgeOf ⟨2026, 6, 15, 0⟩)
      { updated := ⟨2024, 1, 1, 0⟩, tree := .fail, url := "u" } = true ∧
    fetchAttempted (minAgeOf ⟨2026, 6, 15, 0⟩) (maxAgeOf ⟨2026, 6, 15, 0⟩)
      { updated := ⟨2024, 1, 1, 0⟩, tree := .fail, url := "u" } = false ∧
    (((⟨2026, 6, 15, 0⟩ : DateTime).minusOneDay).year = (⟨2026, 6, 15, 0⟩ : DateTime).year →
      maxAgeOf ⟨2026, 6, 15, 0⟩ = oneYearBeforeSpec ⟨2026, 6, 15, 0⟩) :=
  too_old_always_deleted [] ⟨2026, 6, 15, 0⟩
    { updated := ⟨2024, 1, 1, 0⟩, tree := .fail, url := "u" } (by decide)

/-! ## Claim C4 -/

/-- Counterexample to C4 as stated: the filter compares the raw label value,
not its sanitization, against the (sanitized) reference set.  With the
reference set containing exactly `sanitizeTag "a/b" = "a-b"` and a variant
labelled `"a/b"`, the claim demands a keep vote (the sanitized value is in
the set), but `!refs.includes(refName)` sees the raw `"a/b"` and votes
delete. -/
theorem variant_vote_sanitize_counterexample :
    sanitizeTag "a/b" = "a-b" ∧
    List.contains [sanitizeTag "a/b"] (sanitizeTag "a/b") = true ∧
    variantVote [sanitizeTag "a/b"] ⟨⟨some [(versionLabelKey, "a/b")]⟩⟩ = .ok true :=
  ⟨rfl, rfl, rfl⟩

/-- C4 (amended): in the middle age band a platform variant with a
non-empty label value `x` votes keep if and only if the raw `x` itself is a
member of the sanitized reference set; no sanitization is applied to the
label value before the membership test, and the comparison is plain
(case-sensitive) string equality. -/
theorem variant_vote_raw_membership (refs : List String)
    (m : List (String × String)) (x : String)
    (hl : m.lookup versionLabelKey = some x) (hx : x ≠ "") :
    (variantVote refs ⟨⟨some m⟩⟩ = .ok false ↔ x ∈ refs) := by
  by_cases hmem : x ∈ refs <;> simp [variantVote, hl, hx, hmem]

/-- Witness for C4 (amended): a protected raw label value votes keep. -/
theorem variant_vote_raw_membership_witness :
    (variantVote ["main"] ⟨⟨some [(versionLabelKey, "main")]⟩⟩ = .ok false ↔
      "main" ∈ ["main"]) :=
  variant_vote_raw_membership ["main"] [(versionLabelKey, "main")] "main"
    rfl (by decide)

/-! ## Claim C5 -/

/-- C5: an exception thrown while evaluating one version (failed
manifest/config resolution, or the `TypeError` from a missing `Labels`
mapping) is caught at that version's boundary: the version is not selected
for deletion, and the `toDelete` stage of a run containing it is exactly the
`toDelete` stage of the surrounding versions, unaffected. -/
theorem version_error_kept_and_isolated (refs : List String) (now : DateTime)
    (e : EvalError) (v : Version) (vs1 vs2 : List Version)
    (h : evalTry refs (minAgeOf now) (maxAgeOf now) v = .error e) :
    toDeleteFilter refs (minAgeOf now) (maxAgeOf now) v = false ∧
    runToDelete refs now (vs1 ++ v :: vs2) =
      runToDelete refs now vs1 ++ runToDelete refs now vs2 := by
  have hv : toDeleteFilter refs (minAgeOf now) (maxAgeOf now) v = false := by
    simp [toDeleteFilter, h]
  refine ⟨hv, ?_⟩
  simp [runToDelete, List.filter_append, List.filter_cons, hv]

/-- Witness for C5: a middle-band version whose resolution fails is kept
while a too-old version beside it is still deleted. -/
theorem version_error_kept_and_isolated_witness :
    toDeleteFilter [] (minAgeOf ⟨2026, 6, 15, 0⟩) (maxAgeOf ⟨2026, 6, 15, 0⟩)
      { updated := ⟨2026, 5, 1, 0⟩, tree := .fail, url := "u" } = false ∧
    runToDelete [] ⟨2026, 6, 15, 0⟩
      ([] ++ { updated := ⟨2026, 5, 1, 0⟩, tree := .fail, url := "u" } ::
        [{ updated := ⟨2024, 1, 1, 0⟩, tree := .fail, url := "w" }]) =
      runToDelete [] ⟨2026, 6, 15, 0⟩ [] ++
        runToDelete [] ⟨2026, 6, 15, 0⟩
          [{ updated := ⟨2024, 1, 1, 0⟩, tree := .fail, url := "w" }] :=
  version_error_kept_and_isolated [] ⟨2026, 6, 15, 0⟩ .resolution
    { updated := ⟨2026, 5, 1, 0⟩, tree := .fail, url := "u" } [] _ rfl

/-! ## Claim C6 -/

theorem foldl_succ_count (l : List Version) (n : Nat) :
    l.foldl (fun previous _ => previous + 1) n = n + l.length := by
  induction l generalizing n with
  | nil => simp
  | cons a t ih =>
    simp only [List.foldl, ih, List.length_cons]
    omega

/-- C6: on any input, a dry-run issues zero delete requests, selects exactly
the versions a live run selects, and reports the same summary count as the
live run; in both modes the reported count is the number of versions decided
delete. -/
theorem dry_run_equivalence (refs : List String) (now : DateTime)
    (versions : List Version) :
    (runCleanup true refs now versions).deleteCalls = [] ∧
    (runCleanup true refs now versions).toDelete =
      (runCleanup false refs now versions).toDelete ∧
    (runCleanup true refs now versions).reported =
      (runCleanup false refs now versions).reported ∧
    (∀ dryRun, (runCleanup dryRun refs now versions).reported =
      (runToDelete refs now versions).length) := by
  refine ⟨?_, rfl, rfl, ?_⟩
  · simp [runCleanup, executeDeletions, deletionStep]
  · intro dryRun
    simp [runCleanup, executeDeletions, foldl_succ_count]

/-! ## Claim C8 -/

/-- Counterexample to C8 as stated: with the reference set
`{"main", "v1.0.0", "pr-42"}`, a version updated exactly two days before the
current time is not protected by the one-day `too_new` guard — it lands in
the middle age band, its manifest is fetched, and its unprotected label
`v0.9.0` makes the decision delete, not keep. -/
theorem scenario_d_counterexample :
    toDeleteFilter ["main", "v1.0.0", "pr-42"]
      (minAgeOf ⟨2026, 6, 15, 0⟩) (maxAgeOf ⟨2026, 6, 15, 0⟩)
      { updated := (DateTime.minusOneDay (DateTime.minusOneDay ⟨2026, 6, 15, 0⟩)),
        tree := .leaf ⟨⟨some [(versionLabelKey, "v0.9.0")]⟩⟩, url := "u" } = true ∧
    fetchAttempted (minAgeOf ⟨2026, 6, 15, 0⟩) (maxAgeOf ⟨2026, 6, 15, 0⟩)
      { updated := (DateTime.minusOneDay (DateTime.minusOneDay ⟨2026, 6, 15, 0⟩)),
        tree := .leaf ⟨⟨some [(versionLabelKey, "v0.9.0")]⟩⟩, url := "u" } = true := by
  decide

/-- C8 (amended): with the protected reference set
`{"main", "v1.0.0", "pr-42"}`, every version whose `updatedAt` is within the
last day of the current time and whose single manifest's config carries the
label `org.opencontainers.image.version = "v0.9.0"` is kept, because the
`too_new` rule short-circuits before any manifest fetch. -/
theorem scenario_d_amended (now : DateTime) (v : Version)
    (h1 : (minAgeOf now).lt v.updated = true)
    (_h2 : v.tree = .leaf ⟨⟨some [(versionLabelKey, "v0.9.0")]⟩⟩) :
    toDeleteFilter ["main", "v1.0.0", "pr-42"] (minAgeOf now) (maxAgeOf now) v = false ∧
    fetchAttempted (minAgeOf now) (maxAgeOf now) v = false := by
  constructor <;> simp [toDeleteFilter, evalTry, fetchAttempted, h1]

/-- Witness for C8 (amended): a half-day-old version with label `v0.9.0`. -/
theorem scenario_d_amended_witness :
    toDeleteFilter ["main", "v1.0.0", "pr-42"]
      (minAgeOf ⟨2026, 6, 15, 43200000⟩) (maxAgeOf ⟨2026, 6, 15, 43200000⟩)
      { updated := ⟨2026, 6, 15, 0⟩,
        tree := .leaf ⟨⟨some [(versionLabelKey, "v0.9.0")]⟩⟩, url := "u" } = false ∧
    fetchAttempted (minAgeOf ⟨2026, 6, 15, 43200000⟩) (maxAgeOf ⟨2026, 6, 15, 43200000⟩)
      { updated := ⟨2026, 6, 15, 0⟩,
        tree := .leaf ⟨⟨some [(versionLabelKey, "v0.9.0")]⟩⟩, url := "u" } = false :=
  scenario_d_amended ⟨2026, 6, 15, 43200000⟩
    { updated := ⟨2026, 6, 15, 0⟩,
      tree := .leaf ⟨⟨some [(versionLabelKey, "v0.9.0")]⟩⟩, url := "u" }
    (by decide) rfl

/-! ## Claim C9 -/

theorem collectVersions_foldr_init (l : List Package) (init : List Version) :
    l.foldr (fun pkg acc => pkg.versions ++ acc) init =
      l.foldr (fun pkg acc => pkg.versions ++ acc) [] ++ init := by
  induction l with
  | nil => simp
  | cons p t ih => simp [ih]

/-- C9: a package listing entry with no repository association fails the
inventory filter — it never reaches the per-package version listing, so none
of its versions enter the retention stage; the `&&` short-circuit in
`pkg.repository && pkg.repository.node_id === repo.node_id` means the absent
`repository` is never dereferenced (the match on `none` returns `false`
without reading a `node_id`). -/
theorem no_repository_package_excluded (repoNodeId : String) (pkg : Package)
    (ps1 ps2 : List Package) (h : pkg.repository = none) :
    packageMatchesRepo repoNodeId pkg = false ∧
    pkg ∉ repoPackages repoNodeId (ps1 ++ pkg :: ps2) ∧
    collectVersions repoNodeId (ps1 ++ pkg :: ps2) =
      collectVersions repoNodeId ps1 ++ collectVersions repoNodeId ps2 := by
  have hm : packageMatchesRepo repoNodeId pkg = false := by
    simp [packageMatchesRepo, h]
  have hfilter : repoPackages repoNodeId (ps1 ++ pkg :: ps2) =
      repoPackages repoNodeId ps1 ++ repoPackages repoNodeId ps2 := by
    simp [repoPackages, List.filter_append, List.filter_cons, hm]
  refine ⟨hm, ?_, ?_⟩
  · intro hmem
    have hp := (List.mem_filter.mp hmem).2
    rw [hm] at hp
    exact absurd hp (by simp)
  · unfold collectVersions
    rw [hfilter, List.foldr_append, collectVersions_foldr_init]

/-- Witness for C9: a repository-less package between two associated ones. -/
theorem no_repository_package_excluded_witness :
    packageMatchesRepo "R"
      { repository := none, versions := [{ updated := ⟨2024, 1, 1, 0⟩, tree := .fail, url := "x" }] } = false ∧
    ({ repository := none, versions := [{ updated := ⟨2024, 1, 1, 0⟩, tree := .fail, url := "x" }]} : Package) ∉
      repoPackages "R"
        ([{ repository := some ⟨"R"⟩, versions := [] }] ++
          { repository := none, versions := [{ updated := ⟨2024, 1, 1, 0⟩, tree := .fail, url := "x" }] } ::
          [{ repository := some ⟨"R"⟩, versions := [] }]) ∧
    collectVersions "R"
        ([{ repository := some ⟨"R"⟩, versions := [] }] ++
          { repository := none, versions := [{ updated := ⟨2024, 1, 1, 0⟩, tree := .fail, url := "x" }] } ::
          [{ repository := some ⟨"R"⟩, versions := [] }]) =
      collectVersions "R" [{ repository := some ⟨"R"⟩, versions := [] }] ++
        collectVersions "R" [{ repository := some ⟨"R"⟩, versions := [] }] :=
  no_repository_package_excluded "R"
    { repository := none, versions := [{ updated := ⟨2024, 1, 1, 0⟩, tree := .fail, url := "x" }] }
    [{ repository := some ⟨"R"⟩, versions := [] }]
    [{ repository := some ⟨"R"⟩, versions := [] }] rfl

/-! ## Claim C10 -/

/-- C10: in the middle age band, a resolved config whose `Labels` mapping is
absent makes the label access throw — the version is kept through the
per-version exception path (`evalTry` reports the `TypeError`), not through
the missing-label rule; the missing-label keep (an ordinary `false` vote
after the error-level log) happens exactly when a `Labels` mapping exists
but lacks the `org.opencontainers.image.version` key. -/
theorem null_labels_throws_missing_label_votes (refs : List String)
    (now : DateTime) (v : Version) (m : List (String × String))
    (h1 : (minAgeOf now).lt v.updated = false)
    (h2 : v.updated.lt (maxAgeOf now) = false) :
    (v.tree = .leaf ⟨⟨none⟩⟩ →
      evalTry refs (minAgeOf now) (maxAgeOf now) v = .error .nullLabels ∧
      toDeleteFilter refs (minAgeOf now) (maxAgeOf now) v = false) ∧
    (v.tree = .leaf ⟨⟨some m⟩⟩ → m.lookup versionLabelKey = none →
      evalTry refs (minAgeOf now) (maxAgeOf now) v = .ok false ∧
      toDeleteFilter refs (minAgeOf now) (maxAgeOf now) v = false) := by
  constructor
  · intro ht
    simp [evalTry, toDeleteFilter, h1, h2, ht, resolveConfigs, configsVote, variantVote]
  · intro ht hm
    simp [evalTry, toDeleteFilter, h1, h2, ht, hm, resolveConfigs, configsVote, variantVote]

/-- Witness for C10 at a concrete middle-band version with no `Labels`
mapping. -/
theorem null_labels_throws_missing_label_votes_witness :
    (({ updated := ⟨2026, 5, 1, 0⟩, tree := .leaf ⟨⟨none⟩⟩, url := "u" } : Version).tree =
        .leaf ⟨⟨none⟩⟩ →
      evalTry [] (minAgeOf ⟨2026, 6, 15, 0⟩) (maxAgeOf ⟨2026, 6, 15, 0⟩)
        { updated := ⟨2026, 5, 1, 0⟩, tree := .leaf ⟨⟨none⟩⟩, url := "u" } = .error .nullLabels ∧
      toDeleteFilter [] (minAgeOf ⟨2026, 6, 15, 0⟩) (maxAgeOf ⟨2026, 6, 15, 0⟩)
        { updated := ⟨2026, 5, 1, 0⟩, tree := .leaf ⟨⟨none⟩⟩, url := "u" } = false) ∧
    (({ updated := ⟨2026, 5, 1, 0⟩, tree := .leaf ⟨⟨none⟩⟩, url := "u" } : Version).tree =
        .leaf ⟨⟨some [("other", "x")]⟩⟩ →
      List.lookup versionLabelKey [("other", "x")] = none →
      evalTry [] (minAgeOf ⟨2026, 6, 15, 0⟩) (maxAgeOf ⟨2026, 6, 15, 0⟩)
        { updated := ⟨2026, 5, 1, 0⟩, tree := .leaf ⟨⟨none⟩⟩, url := "u" } = .ok false ∧
      toDeleteFilter [] (minAgeOf ⟨2026, 6, 15, 0⟩) (maxAgeOf ⟨2026, 6, 15, 0⟩)
        { updated := ⟨2026, 5, 1, 0⟩, tree := .leaf ⟨⟨none⟩⟩, url := "u" } = false) :=
  null_labels_throws_missing_label_votes [] ⟨2026, 6, 15, 0⟩
    { updated := ⟨2026, 5, 1, 0⟩, tree := .leaf ⟨⟨none⟩⟩, url := "u" }
    [("other", "x")] (by decide) (by decide)
